import Mathlib

/-!
# Verification of the PRED-AG data-access layer

Shallow embedding of `src/prediction_app/database/db_manager.py`
(`DatabaseManager`), the data-access object of the PRED-AG prediction
application, together with proofs about the claims of its specification.

Modelling conventions:

* Timestamps (`datetime.utcnow()`) are modelled as `Nat` seconds since the
  Unix epoch; `timedelta(days = d)` is `d * 86400` seconds, and Python's
  `datetime.weekday()` (Monday = 0 … Sunday = 6) is computed from the epoch
  (1970-01-01 was a Thursday, weekday 3).
* Columns holding `json.dumps` of a list of strings (`interests`,
  `source_articles`, `source_links`) are modelled by their decoded value
  `List String`; `json.dumps`/`json.loads` form an injective
  encode/decode pair, so storing the decoded value is faithful.
  `json.loads` applied to a NULL column (Python `None`) raises `TypeError`,
  which the model keeps explicitly (`jsonLoadsOpt`).
* Python call arguments whose runtime type is checked with `isinstance`
  are modelled by `PyVal`; note that in Python `isinstance(True, int)`
  holds, which the model reproduces.
* `ORDER BY random()` makes the row order of `get_unused_question` and
  `get_multiple_unused_questions` nondeterministic.  The model exposes the
  deterministic *candidate* row sets (`unusedCandidates`,
  `multipleUnusedCandidates`): the value returned by either method is drawn
  from a random permutation of these candidates, so membership and
  emptiness facts about the candidates are exactly the possible-result
  facts about the methods.
* A storage-layer failure (`SQLAlchemyError` raised by the session on
  execute/commit) is modelled by a boolean `fail` argument to each
  operation that writes.
* Python's `str.lower` is modelled by `pyLower` (character-wise
  `Char.toLower`, faithful on the ASCII strings used throughout the
  repository).
-/

/-- Python runtime values as far as the layer's `isinstance` checks and
inserts observe them. -/
inductive PyVal where
  | vint (n : Int)
  | vbool (b : Bool)
  | vstr (s : String)
  | vnone
deriving DecidableEq, Repr

namespace PyVal

/-- Python `isinstance(v, int)`; `True`/`False` are instances of `int`. -/
def isInt : PyVal → Bool
  | vint _ => true
  | vbool _ => true
  | _ => false

/-- Python `isinstance(v, bool)`. -/
def isBool : PyVal → Bool
  | vbool _ => true
  | _ => false

/-- The integer value carried by a `PyVal` that passed `isInt`. -/
def toInt : PyVal → Int
  | vint n => n
  | vbool b => if b then 1 else 0
  | _ => 0

end PyVal

/-- Exceptions the layer raises or lets escape. -/
inductive PyErr where
  | valueError (msg : String)
  | typeError (msg : String)
  | sqlAlchemyError
deriving DecidableEq, Repr

/-- A row of the `users` table (`User` model).  `interests` is stored as
`json.dumps` text; the model keeps the decoded list. -/
structure UserRow where
  id : Int
  username : String
  interests : List String
  created_at : Nat
deriving DecidableEq, Repr

/-- A row of the `questions` table (`Question` model).

Modelled from the spec: the schema module (`models.py`) is not under
`src/`; per spec §3 the columns `resolution_date`, `status`, `resolved_at`,
`outcome`, `resolution_note` are nullable, and `source_links` is optional
(nullable) — `save_question` leaves it NULL. -/
structure QuestionRow where
  id : Int
  question_text : String
  interest : String
  source_articles : List String
  source_links : Option (List String)
  created_at : Nat
  resolution_date : Option Nat
  status : Option String
  resolved_at : Option Nat
  outcome : Option Bool
  resolution_note : Option String
deriving DecidableEq, Repr

/-- A row of the `user_questions` join table. -/
structure ViewRow where
  user_id : Int
  question_id : Int
  viewed_at : Nat
deriving DecidableEq, Repr

/-- The stored state seen by one `DatabaseManager` session: the three
tables plus the surrogate-key counters. -/
structure DBState where
  users : List UserRow
  questions : List QuestionRow
  views : List ViewRow
  nextUserId : Int
  nextQuestionId : Int
deriving DecidableEq, Repr

/-- Python `json.loads` applied to a nullable column value: on a NULL (`None`)
column Python raises `TypeError`. -/
def jsonLoadsOpt : Option (List String) → Except PyErr (List String)
  | some xs => .ok xs
  | none => .error (.typeError "the JSON object must be str, bytes or bytearray")

/-- Python `datetime.weekday()` (Monday = 0 … Sunday = 6) of an epoch-seconds
timestamp; 1970-01-01 was a Thursday. -/
def pyWeekday (t : Nat) : Nat := (t / 86400 + 3) % 7

/-- Python `timedelta(days = d)` in epoch seconds. -/
def timedeltaDays (d : Nat) : Nat := d * 86400

/-- Python `str.lower()`: lower-case every character (ASCII-faithful). -/
def pyLower (s : String) : String := ⟨s.data.map Char.toLower⟩

/-- Python slicing `s[:n]`: the first `n` characters. -/
def pyTake (s : String) (n : Nat) : String := ⟨s.data.take n⟩

/-- Substring test on character lists: Python's `needle in hay`. -/
def containsSub (needle : List Char) : List Char → Bool
  | [] => needle.isEmpty
  | c :: rest => needle.isPrefixOf (c :: rest) || containsSub needle rest

/-- Python `needle in hay` on strings. -/
def strContains (hay needle : String) : Bool :=
  containsSub needle.data hay.data

/-- Model of `DatabaseManager._extract_resolution_date`: keyword heuristic deriving a
resolution date from the question text. -/
def extract_resolution_date (question : String) (now : Nat) : Nat :=
  if strContains (pyLower question) "tomorrow" then
    now + timedeltaDays 1
  else if strContains (pyLower question) "this week" then
    now + timedeltaDays 7
  else if strContains (pyLower question) "weekend" then
    now + timedeltaDays ((6 - pyWeekday now) % 7)
  else
    now + timedeltaDays 7

/-- Mapping structure returned by `get_user`. -/
structure UserDict where
  id : Int
  username : String
  interests : List String
  created_at : Nat
deriving DecidableEq, Repr

/-- Mapping structure returned by `get_unused_question` and
`get_multiple_unused_questions`. -/
structure QuestionDict where
  id : Int
  question : String
  interest : String
  source_articles : List String
  created_at : Nat
deriving DecidableEq, Repr

/-- Mapping structure returned by `get_user_question_history`. -/
structure HistoryEntry where
  id : Int
  question : String
  interest : String
  source_articles : List String
  viewed_at : Nat
  created_at : Nat
deriving DecidableEq, Repr

/-- Mapping structure returned by `get_pending_resolutions`. -/
structure PendingDict where
  id : Int
  question : String
  interest : String
  created_at : Nat
  source_articles : List String
  source_links : List String
deriving DecidableEq, Repr

/-- Row → dict conversion shared by `get_unused_question` and
`get_multiple_unused_questions`. -/
def toQuestionDict (q : QuestionRow) : QuestionDict :=
  ⟨q.id, q.question_text, q.interest, q.source_articles, q.created_at⟩

/-- Model of `DatabaseManager.create_user`: inserts the user (interests serialized
with `json.dumps`) and commits; there is no try/except, so a storage error
propagates.  Returns the new surrogate id. -/
def createUser (username : String) (interests : List String) (now : Nat)
    (fail : Bool) (s : DBState) : Except PyErr (DBState × Int) :=
  if fail then .error .sqlAlchemyError
  else
    let uid := s.nextUserId
    .ok ({ s with
            users := s.users ++ [⟨uid, username, interests, now⟩],
            nextUserId := uid + 1 }, uid)

/-- Model of `DatabaseManager.get_user`: first row matching the username, decoded;
`None` if absent; a storage error is caught and logged and `None`
returned. -/
def getUser (username : String) (fail : Bool) (s : DBState) : Option UserDict :=
  if fail then none
  else
    match s.users.find? (fun u => u.username == username) with
    | some u => some ⟨u.id, u.username, u.interests, u.created_at⟩
    | none => none

/-- The anti-join subquery: has `user_id` a `user_questions` row for
question `qid`? -/
def viewedBy (s : DBState) (user_id : Int) (qid : Int) : Bool :=
  s.views.any (fun v => v.user_id == user_id && v.question_id == qid)

/-- Candidate rows of `get_unused_question`: questions whose `interest`
column equals the argument verbatim and whose id is not in the viewed
subquery for `user_id`.  `ORDER BY random() LIMIT 1` then picks one of
these at random. -/
def unusedCandidates (s : DBState) (interest : String) (user_id : Int) :
    List QuestionRow :=
  s.questions.filter (fun q => q.interest == interest && !(viewedBy s user_id q.id))

/-- Model of `DatabaseManager.get_unused_question`, with `ORDER BY random()`
modelled by an environment-chosen permutation `shuffle` of the candidate
rows. -/
def getUnusedQuestion (shuffle : List QuestionRow → List QuestionRow)
    (interest : String) (user_id : Int) (s : DBState) : Option QuestionDict :=
  ((shuffle (unusedCandidates s interest user_id)).head?).map toQuestionDict

/-- Candidate rows of `get_multiple_unused_questions` *after* its
`interest = str(interest).lower()` sanitization: `sanitized` is the
lower-cased argument. -/
def multipleUnusedCandidates (s : DBState) (sanitized : String) (user_id : Int) :
    List QuestionRow :=
  s.questions.filter (fun q => q.interest == sanitized && !(viewedBy s user_id q.id))

/-- Model of `DatabaseManager.get_multiple_unused_questions`: validates that
`user_id` and `count` are ints, raising `ValueError` otherwise — the
method's only handler is `except SQLAlchemyError`, so the `ValueError`
escapes to the caller.  On a storage error it returns `[]`.  Otherwise it
lower-cases the interest and returns up to `count` candidates in random
order (`shuffle`). -/
def getMultipleUnusedQuestions (shuffle : List QuestionRow → List QuestionRow)
    (interest : String) (user_id count : PyVal) (fail : Bool) (s : DBState) :
    Except PyErr (List QuestionDict) :=
  if !user_id.isInt || !count.isInt then
    .error (.valueError "Invalid input types")
  else if fail then
    .ok []
  else
    .ok (((shuffle (multipleUnusedCandidates s (pyLower interest) user_id.toInt)).take
          count.toInt.toNat).map toQuestionDict)

/-- Model of `DatabaseManager.mark_question_as_viewed`: validates that both
arguments are ints, raising `ValueError` otherwise — the only handler is
`except SQLAlchemyError`, so the `ValueError` escapes and nothing is
inserted.  On success it inserts one join row stamped with the current
UTC time; a storage error is caught, the session rolled back and the
error logged. -/
def markQuestionAsViewed (question_id user_id : PyVal) (now : Nat)
    (fail : Bool) (s : DBState) : Except PyErr (DBState × Unit) :=
  if !question_id.isInt || !user_id.isInt then
    .error (.valueError "Invalid input types")
  else if fail then
    .ok (s, ())
  else
    .ok ({ s with
            views := s.views ++ [⟨user_id.toInt, question_id.toInt, now⟩] }, ())

/-- Python truthiness of the optional `interest` filter argument:
`if interest:` is false for both `None` and the empty string. -/
def pyTruthyStr : Option String → Bool
  | some i => !i.isEmpty
  | none => false

/-- The joined, filtered (but not yet ordered) rows of
`get_user_question_history`: inner join of `questions` with
`user_questions` on the question id (a unique surrogate key), restricted
to `user_id` and, when the `interest` argument is truthy, to that
interest. -/
def historyRows (s : DBState) (user_id : Int) (interest : Option String) :
    List HistoryEntry :=
  s.views.filterMap (fun v =>
    if v.user_id == user_id then
      match s.questions.find? (fun q => q.id == v.question_id) with
      | some q =>
        if pyTruthyStr interest then
          if q.interest == interest.getD "" then
            some ⟨q.id, q.question_text, q.interest, q.source_articles,
                  v.viewed_at, q.created_at⟩
          else none
        else
          some ⟨q.id, q.question_text, q.interest, q.source_articles,
                v.viewed_at, q.created_at⟩
      | none => none
    else none)

/-- Insertion into a list kept in descending `viewed_at` order. -/
def insertByViewedDesc (e : HistoryEntry) : List HistoryEntry → List HistoryEntry
  | [] => [e]
  | x :: xs =>
      if x.viewed_at ≤ e.viewed_at then e :: x :: xs
      else x :: insertByViewedDesc e xs

/-- Sorting for `ORDER BY viewed_at DESC` (ties ordered arbitrarily by the store; the
model fixes one order). -/
def sortByViewedDesc (l : List HistoryEntry) : List HistoryEntry :=
  l.foldr insertByViewedDesc []

/-- Model of `DatabaseManager.get_user_question_history`: join, filter, order by
`viewed_at` descending; any exception yields `[]`. -/
def getUserQuestionHistory (user_id : Int) (interest : Option String)
    (fail : Bool) (s : DBState) : List HistoryEntry :=
  if fail then []
  else sortByViewedDesc (historyRows s user_id interest)

/-- Model of `DatabaseManager.save_question`: derives `resolution_date` from the
text, inserts the row with `status='pending'` (leaving `source_links`
NULL) and commits; no try/except, so a storage error propagates.
`created_at` is set at insert (spec §3). -/
def saveQuestion (question_text interest : String)
    (source_articles : List String) (now : Nat) (fail : Bool) (s : DBState) :
    Except PyErr (DBState × Int) :=
  let resolution_date := extract_resolution_date question_text now
  if fail then .error .sqlAlchemyError
  else
    let qid := s.nextQuestionId
    .ok ({ s with
            questions := s.questions ++
              [⟨qid, question_text, interest, source_articles, none, now,
                some resolution_date, some "pending", none, none, none⟩],
            nextQuestionId := qid + 1 }, qid)

/-- Model of `DatabaseManager.create_question`: inserts with explicit
`source_links` and neither `resolution_date` nor `status`; no try/except,
so a storage error propagates. -/
def createQuestion (question_text interest : String)
    (source_articles source_links : List String) (now : Nat) (fail : Bool)
    (s : DBState) : Except PyErr (DBState × Int) :=
  if fail then .error .sqlAlchemyError
  else
    let qid := s.nextQuestionId
    .ok ({ s with
            questions := s.questions ++
              [⟨qid, question_text, interest, source_articles,
                some source_links, now, none, none, none, none, none⟩],
            nextQuestionId := qid + 1 }, qid)

/-- Model of `DatabaseManager.get_pending_resolutions`: filters the questions with
NULL `resolved_at` and builds their dicts; building a dict calls
`json.loads(q.source_links)`, which raises `TypeError` when the column is
NULL, and the method has no exception handler. -/
def getPendingResolutions (s : DBState) : Except PyErr (List PendingDict) :=
  (s.questions.filter (fun q => q.resolved_at.isNone)).mapM (fun q => do
    let links ← jsonLoadsOpt q.source_links
    pure (⟨q.id, q.question_text, q.interest, q.created_at,
           q.source_articles, links⟩ : PendingDict))

/-- Replace the first element satisfying `p` (SQLAlchemy mutates the one
row object returned by `first()`/`get()`). -/
def updateFirst (p : α → Bool) (f : α → α) : List α → List α
  | [] => []
  | x :: xs => if p x then f x :: xs else x :: updateFirst p f xs

/-- Model of `DatabaseManager.resolve_question`: validates `question_id` is an int
and `result` a bool, raising `ValueError` otherwise (only
`SQLAlchemyError` is handled, so the `ValueError` escapes); truncates the
note to 500 characters; if the question exists, overwrites `resolved_at`,
`outcome` and `resolution_note` and commits — a storage error at commit is
caught, rolled back and logged; a missing question is a no-op. -/
def resolveQuestion (question_id result : PyVal) (note : Option String)
    (now : Nat) (fail : Bool) (s : DBState) : Except PyErr (DBState × Unit) :=
  if !question_id.isInt then .error (.valueError "Invalid question_id type")
  else if !result.isBool then .error (.valueError "Invalid result type")
  else
    let note' := note.map (fun n => pyTake n 500)
    match s.questions.find? (fun q => q.id == question_id.toInt) with
    | some _ =>
        if fail then .ok (s, ())
        else
          .ok ({ s with
                  questions := updateFirst (fun q => q.id == question_id.toInt)
                    (fun q => { q with
                                 resolved_at := some now,
                                 outcome := some (result == PyVal.vbool true),
                                 resolution_note := note' }) s.questions }, ())
    | none => .ok (s, ())

/-- Model of `DatabaseManager.update_user_interests`: validates `user_id` is an int
(`ValueError` escapes otherwise — only `SQLAlchemyError` is handled);
lower-cases every interest; if the user exists, overwrites the stored
list and commits — a storage error is caught, rolled back and logged; a
missing user is a no-op. -/
def updateUserInterests (user_id : PyVal) (interests : List String)
    (fail : Bool) (s : DBState) : Except PyErr (DBState × Unit) :=
  if !user_id.isInt then .error (.valueError "Invalid user_id type")
  else
    let sanitized := interests.map pyLower
    match s.users.find? (fun u => u.id == user_id.toInt) with
    | some _ =>
        if fail then .ok (s, ())
        else
          .ok ({ s with
                  users := updateFirst (fun u => u.id == user_id.toInt)
                    (fun u => { u with interests := sanitized }) s.users }, ())
    | none => .ok (s, ())

/-- The layer's state-changing operations, as invocable by a caller (the
boolean records whether the storage layer fails during the call). -/
inductive Op where
  | opCreateUser (username : String) (interests : List String) (now : Nat) (fail : Bool)
  | opMarkViewed (question_id user_id : PyVal) (now : Nat) (fail : Bool)
  | opSaveQuestion (text interest : String) (articles : List String) (now : Nat) (fail : Bool)
  | opCreateQuestion (text interest : String) (articles links : List String) (now : Nat) (fail : Bool)
  | opResolveQuestion (question_id result : PyVal) (note : Option String) (now : Nat) (fail : Bool)
  | opUpdateInterests (user_id : PyVal) (interests : List String) (fail : Bool)

/-- Effect of one operation on the stored state; an escaping exception
leaves the stored state unchanged (validation happens before any write,
and storage errors either prevent the commit or are rolled back). -/
def applyOp (s : DBState) : Op → DBState
  | .opCreateUser u i n f =>
      match createUser u i n f s with | .ok (s', _) => s' | .error _ => s
  | .opMarkViewed q u n f =>
      match markQuestionAsViewed q u n f s with | .ok (s', _) => s' | .error _ => s
  | .opSaveQuestion t i a n f =>
      match saveQuestion t i a n f s with | .ok (s', _) => s' | .error _ => s
  | .opCreateQuestion t i a l n f =>
      match createQuestion t i a l n f s with | .ok (s', _) => s' | .error _ => s
  | .opResolveQuestion q r nt n f =>
      match resolveQuestion q r nt n f s with | .ok (s', _) => s' | .error _ => s
  | .opUpdateInterests u i f =>
      match updateUserInterests u i f s with | .ok (s', _) => s' | .error _ => s

/-- The state after a sequence of operations. -/
def runOps (s : DBState) (ops : List Op) : DBState :=
  ops.foldl applyOp s

/-- The number of days from `now` to the next Sunday, 0 when `now` is a
Sunday — the spec's description of the "weekend" branch. -/
def daysUntilNextSunday (now : Nat) : Nat :=
  if pyWeekday now = 6 then 0 else 6 - pyWeekday now

/-- The empty store (fresh database; surrogate keys start at 1). -/
def initState : DBState := ⟨[], [], [], 1, 1⟩

/-- Strictly descending `viewed_at` order: each entry is viewed strictly
later than the next. -/
def StrictlyDescendingViewed (l : List HistoryEntry) : Prop :=
  List.Chain' (fun a b => b.viewed_at < a.viewed_at) l

/-- Descending (non-increasing) `viewed_at` order. -/
def DescendingViewed (l : List HistoryEntry) : Prop :=
  List.Chain' (fun a b => b.viewed_at ≤ a.viewed_at) l

/-- Does the string contain an ASCII uppercase letter? -/
def hasAsciiUpper (s : String) : Bool :=
  s.data.any (fun c => 65 ≤ c.toNat && c.toNat ≤ 90)

/-- A question stored under the mixed-case interest `"Tech"`. -/
def techQuestion : QuestionRow :=
  ⟨1, "Will the Tech index rise?", "Tech", ["a"], none, 0,
   none, none, none, none, none⟩

/-- A store holding only `techQuestion` and one user, with no view rows. -/
def techState : DBState :=
  ⟨[⟨1, "alice", ["Tech"], 0⟩], [techQuestion], [], 2, 2⟩

/-- A question stored under the lower-case interest `"sports"`. -/
def sportsQuestion : QuestionRow :=
  ⟨1, "Will the match be won?", "sports", ["a"], none, 0,
   none, none, none, none, none⟩

/-- A store holding only `sportsQuestion` and one user, with no view
rows. -/
def sportsState : DBState :=
  ⟨[⟨1, "bob", ["sports"], 0⟩], [sportsQuestion], [], 2, 2⟩

/-- An already-resolved question. -/
def resolvedQuestion : QuestionRow :=
  ⟨1, "Will it rain tomorrow?", "weather", ["a"], none, 0, some 86400,
   some "pending", some 100, some true, some "it did"⟩

/-- A store holding only `resolvedQuestion`. -/
def resolvedState : DBState := ⟨[], [resolvedQuestion], [], 1, 2⟩

/-- A store with one user. -/
def aliceRow : UserRow := ⟨1, "alice", ["old"], 0⟩

/-- A store holding only `aliceRow`. -/
def aliceState : DBState := ⟨[aliceRow], [], [], 2, 1⟩

/-- A caller history that views two questions at the same wall-clock
second (`datetime.utcnow()` can return the same value twice). -/
def tieOps : List Op :=
  [.opCreateUser "alice" ["tech"] 0 false,
   .opCreateQuestion "q1?" "tech" ["a1"] ["l1"] 10 false,
   .opCreateQuestion "q2?" "tech" ["a2"] ["l2"] 20 false,
   .opMarkViewed (.vint 1) (.vint 1) 50 false,
   .opMarkViewed (.vint 2) (.vint 1) 50 false]

/-- The store reached by `tieOps` from the empty store. -/
def tieState : DBState := runOps initState tieOps

/-- No operation of the layer ever deletes a `user_questions` row. -/
theorem views_mono_applyOp (s : DBState) (op : Op) :
    ∀ v ∈ s.views, v ∈ (applyOp s op).views := by
  intro v hv
  cases op <;>
    simp only [applyOp, createUser, markQuestionAsViewed, saveQuestion,
      createQuestion, resolveQuestion, updateUserInterests] <;>
    split <;> rename_i heq <;>
    first
      | exact hv
      | ((repeat' split at heq) <;> simp_all <;>
          (first
            | (obtain ⟨heq, -⟩ := heq; subst heq; simp [hv])
            | (subst heq; simp [hv])))

/-- View rows persist across any sequence of subsequent operations. -/
theorem views_mono_runOps (s : DBState) (ops : List Op) :
    ∀ v ∈ s.views, v ∈ (runOps s ops).views := by
  induction ops generalizing s with
  | nil => intro v hv; exact hv
  | cons op ops ih =>
      intro v hv
      exact ih (applyOp s op) v (views_mono_applyOp s op v hv)

/-- The two unused-question queries filter with the same predicate: they
differ only in the interest value they plug in. -/
theorem multipleUnusedCandidates_eq_unused (s : DBState) (i : String) (U : Int) :
    multipleUnusedCandidates s i U = unusedCandidates s i U := rfl

/-- A question id that has a view row for the user is excluded from the
unused-question candidates, whatever interest is queried. -/
theorem not_unusedCandidate_of_viewed (s : DBState) (i : String) (U qid : Int)
    (v : ViewRow) (hv : v ∈ s.views) (hu : v.user_id = U) (hq : v.question_id = qid) :
    ∀ q ∈ unusedCandidates s i U, q.id ≠ qid := by
  intro q hq' heq
  simp only [unusedCandidates, List.mem_filter, Bool.and_eq_true,
    Bool.not_eq_true'] at hq'
  have : viewedBy s U q.id = true := by
    simp only [viewedBy, List.any_eq_true, Bool.and_eq_true, beq_iff_eq]
    exact ⟨v, hv, hu, by rw [hq, heq]⟩
  rw [this] at hq'
  exact absurd hq'.2.2 (by simp)

/-- An unviewed question of matching interest is an unused-question
candidate. -/
theorem unusedCandidate_of_not_viewed (s : DBState) (U : Int) (Q : QuestionRow)
    (hQ : Q ∈ s.questions)
    (hnv : ∀ v ∈ s.views, ¬(v.user_id = U ∧ v.question_id = Q.id)) :
    Q ∈ unusedCandidates s Q.interest U := by
  simp only [unusedCandidates, List.mem_filter, Bool.and_eq_true, beq_self_eq_true,
    Bool.not_eq_true', true_and]
  refine ⟨hQ, ?_⟩
  simp only [viewedBy, List.any_eq_false, Bool.and_eq_true, beq_iff_eq, not_and]
  intro v hv hu
  exact fun hqid => hnv v hv ⟨hu, hqid⟩

/-- Any dict returned by `get_unused_question` comes from a candidate
row. -/
theorem getUnusedQuestion_mem (shuffle : List QuestionRow → List QuestionRow)
    (hperm : ∀ l, (shuffle l).Perm l) (i : String) (U : Int) (s : DBState)
    (d : QuestionDict) (h : getUnusedQuestion shuffle i U s = some d) :
    ∃ q ∈ unusedCandidates s i U, d = toQuestionDict q := by
  unfold getUnusedQuestion at h
  cases hh : (shuffle (unusedCandidates s i U)).head? with
  | none => rw [hh] at h; exact absurd h (by simp)
  | some q =>
      rw [hh, Option.map_some'] at h
      refine ⟨q, ?_, (Option.some.inj h).symm⟩
      exact ((hperm _).mem_iff).mp (List.mem_of_mem_head? (by simp [hh]))

/-- Any dict in a list returned by `get_multiple_unused_questions` comes
from a candidate row for the lower-cased interest. -/
theorem getMultiple_mem (shuffle : List QuestionRow → List QuestionRow)
    (hperm : ∀ l, (shuffle l).Perm l) (i : String) (U : Int) (cnt : PyVal)
    (fail : Bool) (s : DBState) (out : List QuestionDict)
    (h : getMultipleUnusedQuestions shuffle i (.vint U) cnt fail s = .ok out) :
    ∀ d ∈ out, ∃ q ∈ multipleUnusedCandidates s (pyLower i) U, d = toQuestionDict q := by
  intro d hd
  unfold getMultipleUnusedQuestions at h
  split at h
  · exact absurd h (by simp)
  · split at h
    · obtain rfl : ([] : List QuestionDict) = out := by injection h
      exact absurd hd (by simp)
    · obtain rfl :
        List.map toQuestionDict
          (List.take cnt.toInt.toNat
            (shuffle (multipleUnusedCandidates s (pyLower i) (PyVal.vint U).toInt))) = out := by
        injection h
      obtain ⟨q, hq, hdq⟩ := List.mem_map.mp hd
      refine ⟨q, ?_, hdq.symm⟩
      exact ((hperm _).mem_iff).mp (List.mem_of_mem_take hq)

/-- C2: `_extract_resolution_date` — as used by `save_question`, which
stores its value in the inserted row — scans the lower-cased question
text for "tomorrow" (→ now + 1 day), then "this week" (→ now + 7 days),
then "weekend" (→ now + days until the next Sunday, 0 when today is a
Sunday), and defaults to now + 7 days; the keywords are checked in that
fixed order and the first match wins. -/
theorem c2_resolution_date_heuristic (text interest : String)
    (articles : List String) (now : Nat) (s : DBState) :
    extract_resolution_date text now =
      (if strContains (pyLower text) "tomorrow" then now + timedeltaDays 1
       else if strContains (pyLower text) "this week" then now + timedeltaDays 7
       else if strContains (pyLower text) "weekend" then
         now + timedeltaDays (daysUntilNextSunday now)
       else now + timedeltaDays 7) ∧
    saveQuestion text interest articles now false s =
      .ok ({ s with
              questions := s.questions ++
                [⟨s.nextQuestionId, text, interest, articles, none, now,
                  some (extract_resolution_date text now), some "pending",
                  none, none, none⟩],
              nextQuestionId := s.nextQuestionId + 1 }, s.nextQuestionId) := by
  constructor
  · unfold extract_resolution_date daysUntilNextSunday timedeltaDays pyWeekday
    split_ifs <;> omega
  · rfl

/-- C4: `get_pending_resolutions` selects exactly the questions with NULL
`resolved_at`, but on a state containing a question created by
`save_question` — whose `source_links` column is NULL — it raises
`TypeError` from `json.loads(None)` instead of returning normally. -/
theorem c4_pending_raises_after_save_question :
    ∃ s' qid,
      saveQuestion "Will it rain tomorrow?" "weather" ["article"] 1000 false
          initState = .ok (s', qid) ∧
      getPendingResolutions s'
        = .error (.typeError "the JSON object must be str, bytes or bytearray") :=
  ⟨_, _, rfl, rfl⟩

/-- C9: on a storage failure, `create_user`, `save_question` and
`create_question` propagate the exception, while `mark_question_as_viewed`,
`resolve_question` and `update_user_interests` catch it, roll the session
back (the stored state is unchanged) and return normally. -/
theorem c9_storage_error_policy (username text interest : String)
    (ints articles links : List String) (note : Option String)
    (now : Nat) (qid uid : Int) (res : Bool) (s : DBState) :
    createUser username ints now true s = .error .sqlAlchemyError ∧
    saveQuestion text interest articles now true s = .error .sqlAlchemyError ∧
    createQuestion text interest articles links now true s
        = .error .sqlAlchemyError ∧
    markQuestionAsViewed (.vint qid) (.vint uid) now true s = .ok (s, ()) ∧
    resolveQuestion (.vint qid) (.vbool res) note now true s = .ok (s, ()) ∧
    updateUserInterests (.vint uid) ints true s = .ok (s, ()) := by
  refine ⟨rfl, rfl, rfl, rfl, ?_, ?_⟩
  · unfold resolveQuestion
    cases List.find? (fun q => q.id == (PyVal.vint qid).toInt) s.questions <;> rfl
  · unfold updateUserInterests
    cases List.find? (fun u => u.id == (PyVal.vint uid).toInt) s.users <;> rfl

set_option maxRecDepth 4096 in
/-- C3 is false on the code: `resolve_question` has no guard against
re-resolution — called on a question that is already resolved
(`resolved_at = 100`, `outcome = true`), it overwrites all three
resolution fields again. -/
theorem c3_counterexample :
    resolvedQuestion.resolved_at = some 100 ∧
    resolvedQuestion.outcome = some true ∧
    ∃ s',
      resolveQuestion (.vint 1) (.vbool false) (some "it did not") 200 false
          resolvedState = .ok (s', ()) ∧
      s'.questions = [{ resolvedQuestion with
                         resolved_at := some 200,
                         outcome := some false,
                         resolution_note := some "it did not" }] ∧
      s'.questions ≠ resolvedState.questions := by
  exact ⟨rfl, rfl, _, rfl, by decide, by decide⟩

/-- C3 amended: `resolve_question` on an existing question always
overwrites `resolved_at`, `outcome` and `resolution_note` with the new
values — also when the question is already resolved: the pending →
resolved transition is silently re-writable, not one-way. -/
theorem c3_amended_overwrites (s : DBState) (qid : Int) (res : Bool)
    (note : Option String) (now : Nat) (q : QuestionRow)
    (hq : s.questions.find? (fun x => x.id == qid) = some q) :
    resolveQuestion (.vint qid) (.vbool res) note now false s =
      .ok ({ s with
              questions := updateFirst (fun x => x.id == qid)
                (fun x => { x with
                             resolved_at := some now,
                             outcome := some res,
                             resolution_note := note.map (fun n => pyTake n 500) })
                s.questions }, ()) := by
  have hres : ((PyVal.vbool res) == PyVal.vbool true) = res := by cases res <;> rfl
  unfold resolveQuestion
  simp only [PyVal.isInt, PyVal.isBool, PyVal.toInt, Bool.not_true,
    Bool.false_eq_true, if_false, hq, hres]

/-- Witness for `c3_amended_overwrites` at the already-resolved store. -/
theorem c3_amended_overwrites_witness :
    resolveQuestion (.vint 1) (.vbool false) (some "it did not") 200 false
        resolvedState =
      .ok ({ resolvedState with
              questions := updateFirst (fun x => x.id == (1 : Int))
                (fun x => { x with
                             resolved_at := some 200,
                             outcome := some false,
                             resolution_note := (some "it did not").map
                               (fun n => pyTake n 500) })
                resolvedState.questions }, ()) :=
  c3_amended_overwrites resolvedState 1 false (some "it did not") 200
    resolvedQuestion (by decide)

/-- C5 is false on the code: with a non-integer `user_id`,
`get_multiple_unused_questions` raises `ValueError`, and its only
exception handler is `except SQLAlchemyError`, so the `ValueError`
propagates to the caller instead of being caught and logged. -/
theorem c5_counterexample :
    getMultipleUnusedQuestions id "tech" (.vstr "alice") (.vint 5) false
        initState = .error (.valueError "Invalid input types") := rfl

/-- C5 amended: with a non-integer `user_id` or `count` the method raises
`ValueError` which propagates to the caller (only `SQLAlchemyError` is
caught); on a storage error with valid arguments it returns the empty
list. -/
theorem c5_amended_validation_propagates
    (shuffle : List QuestionRow → List QuestionRow) (interest : String)
    (uid cnt : PyVal) (fail : Bool) (s : DBState) :
    ((uid.isInt && cnt.isInt) = false →
      getMultipleUnusedQuestions shuffle interest uid cnt fail s =
        .error (.valueError "Invalid input types")) ∧
    ((uid.isInt && cnt.isInt) = true →
      getMultipleUnusedQuestions shuffle interest uid cnt true s = .ok []) := by
  cases hu : uid.isInt <;> cases hc : cnt.isInt <;>
    constructor <;> intro h <;> simp_all [getMultipleUnusedQuestions]

/-- Witness for `c5_amended_validation_propagates`: both branches at
concrete inputs. -/
theorem c5_amended_witness :
    getMultipleUnusedQuestions id "news" (.vstr "alice") (.vint 5) false
        initState = .error (.valueError "Invalid input types") ∧
    getMultipleUnusedQuestions id "news" (.vint 1) (.vint 5) true initState
        = .ok [] :=
  ⟨(c5_amended_validation_propagates id "news" (.vstr "alice") (.vint 5) false
      initState).1 rfl,
   (c5_amended_validation_propagates id "news" (.vint 1) (.vint 5) true
      initState).2 rfl⟩

/-- C6: `mark_question_as_viewed` raises `ValueError` to the caller (not
caught internally) whenever `question_id` or `user_id` is not an integer,
inserting nothing; with two integers it inserts exactly one join row with
the current UTC timestamp; a storage error during the insert is caught,
the session rolled back, the error logged, and the method returns without
raising. -/
theorem c6_mark_viewed_contract (qid uid : PyVal) (now : Nat) (fail : Bool)
    (s : DBState) :
    ((qid.isInt && uid.isInt) = false →
      markQuestionAsViewed qid uid now fail s =
        .error (.valueError "Invalid input types") ∧
      applyOp s (.opMarkViewed qid uid now fail) = s) ∧
    ((qid.isInt && uid.isInt) = true →
      markQuestionAsViewed qid uid now false s =
        .ok ({ s with views := s.views ++ [⟨uid.toInt, qid.toInt, now⟩] }, ()) ∧
      markQuestionAsViewed qid uid now true s = .ok (s, ())) := by
  cases hq : qid.isInt <;> cases hu : uid.isInt <;>
    constructor <;> intro h <;>
    simp_all [markQuestionAsViewed, applyOp]

/-- Witness for `c6_mark_viewed_contract`: both branches at concrete
inputs. -/
theorem c6_mark_viewed_witness :
    (markQuestionAsViewed (.vstr "x") (.vint 1) 50 false initState =
        .error (.valueError "Invalid input types") ∧
      applyOp initState (.opMarkViewed (.vstr "x") (.vint 1) 50 false)
        = initState) ∧
    (markQuestionAsViewed (.vint 1) (.vint 1) 50 false sportsState =
        .ok ({ sportsState with views := sportsState.views ++ [⟨1, 1, 50⟩] }, ()) ∧
      markQuestionAsViewed (.vint 1) (.vint 1) 50 true sportsState
        = .ok (sportsState, ())) :=
  ⟨(c6_mark_viewed_contract (.vstr "x") (.vint 1) 50 false initState).1 rfl,
   (c6_mark_viewed_contract (.vint 1) (.vint 1) 50 false sportsState).2 rfl⟩

/-- Finding after `updateFirst`: if the first `p`-match and the first
`q`-match of a list are the same element `u`, and the update preserves
`q`-matching, then the first `q`-match of the updated list is the updated
`u`. -/
theorem find?_updateFirst {α : Type} (p q : α → Bool) (f : α → α) :
    ∀ (l : List α) (u : α), l.find? p = some u → l.find? q = some u →
      q (f u) = true → (updateFirst p f l).find? q = some (f u) := by
  intro l
  induction l with
  | nil => intro u hp _ _; exact absurd hp (by simp)
  | cons x xs ih =>
      intro u hp hq hqf
      by_cases hpx : p x = true
      · rw [List.find?_cons_of_pos _ hpx] at hp
        obtain rfl := Option.some.inj hp
        unfold updateFirst
        rw [if_pos hpx]
        exact List.find?_cons_of_pos _ hqf
      · rw [List.find?_cons_of_neg _ hpx] at hp
        have hqx : q x = false := by
          by_cases hqx : q x = true
          · rw [List.find?_cons_of_pos _ hqx] at hq
            obtain rfl := Option.some.inj hq
            exact absurd (List.find?_some hp) hpx
          · simpa using hqx
        rw [List.find?_cons_of_neg _ (by simp [hqx])] at hq
        unfold updateFirst
        rw [if_neg hpx]
        rw [List.find?_cons_of_neg _ (by simp [hqx])]
        exact ih u hp hq hqf

/-- C7: for an existing user, `update_user_interests` stores the
element-wise lower-cased list, and a subsequent `get_user` for that user
returns exactly that lower-cased list in the same order.  The two `find?`
hypotheses say that `u` is the row the update targets (first row with the
given id) and also the row `get_user` reads (first row with its
username). -/
theorem c7_interests_roundtrip (s : DBState) (uid : Int)
    (interests : List String) (u : UserRow)
    (hid : s.users.find? (fun x => x.id == uid) = some u)
    (hname : s.users.find? (fun x => x.username == u.username) = some u) :
    ∃ s', updateUserInterests (.vint uid) interests false s = .ok (s', ()) ∧
      getUser u.username false s' =
        some ⟨u.id, u.username, interests.map pyLower, u.created_at⟩ := by
  refine ⟨{ s with
             users := updateFirst (fun x => x.id == uid)
               (fun x => { x with interests := interests.map pyLower })
               s.users }, ?_, ?_⟩
  · unfold updateUserInterests
    simp only [PyVal.isInt, PyVal.toInt, Bool.not_true, Bool.false_eq_true,
      if_false, hid]
  · have hfind := find?_updateFirst (fun x => x.id == uid)
      (fun x => x.username == u.username)
      (fun x => { x with interests := interests.map pyLower })
      s.users u hid hname (by simp)
    unfold getUser
    simp only [Bool.false_eq_true, if_false, hfind]

/-- Witness for `c7_interests_roundtrip`: `["Sports", "NEWS"]` round-trips
as `["sports", "news"]`. -/
theorem c7_interests_roundtrip_witness :
    ∃ s', updateUserInterests (.vint 1) ["Sports", "NEWS"] false aliceState
            = .ok (s', ()) ∧
      getUser "alice" false s' = some ⟨1, "alice", ["sports", "news"], 0⟩ :=
  c7_interests_roundtrip aliceState 1 ["Sports", "NEWS"] aliceRow
    (by decide) (by decide)

/-- Lemma: `insertByViewedDesc` is ordered insertion for the descending
`viewed_at` relation. -/
theorem insertByViewedDesc_eq_orderedInsert (e : HistoryEntry)
    (l : List HistoryEntry) :
    insertByViewedDesc e l =
      List.orderedInsert (fun a b => b.viewed_at ≤ a.viewed_at) e l := by
  induction l with
  | nil => rfl
  | cons x xs ih => simp only [insertByViewedDesc, List.orderedInsert, ih]

/-- Lemma: `sortByViewedDesc` is insertion sort for the descending relation. -/
theorem sortByViewedDesc_eq_insertionSort (l : List HistoryEntry) :
    sortByViewedDesc l =
      List.insertionSort (fun a b => b.viewed_at ≤ a.viewed_at) l := by
  induction l with
  | nil => rfl
  | cons x xs ih =>
      show insertByViewedDesc x (sortByViewedDesc xs) = _
      rw [ih, insertByViewedDesc_eq_orderedInsert]
      rfl

/-- C8 amended: the list returned by `get_user_question_history` is in
descending — non-increasing, not necessarily strictly decreasing —
`viewed_at` order, for every user, optional interest filter and state. -/
theorem c8_amended_descending (uid : Int) (interest : Option String)
    (fail : Bool) (s : DBState) :
    DescendingViewed (getUserQuestionHistory uid interest fail s) := by
  unfold DescendingViewed getUserQuestionHistory
  split
  · exact List.chain'_nil
  · rw [sortByViewedDesc_eq_insertionSort]
    haveI : IsTotal HistoryEntry (fun a b => b.viewed_at ≤ a.viewed_at) :=
      ⟨fun a b => Nat.le_total b.viewed_at a.viewed_at⟩
    haveI : IsTrans HistoryEntry (fun a b => b.viewed_at ≤ a.viewed_at) :=
      ⟨fun a b c hab hbc => Nat.le_trans hbc hab⟩
    exact (List.sorted_insertionSort _ _).chain'

set_option maxRecDepth 16384 in
/-- C8 is false as stated: two view rows written at the same wall-clock
second — reachable from the empty store by the layer's own operations —
give a history whose `viewed_at` keys are `[50, 50]`, which is descending
but not strictly descending. -/
theorem c8_counterexample :
    (getUserQuestionHistory 1 none false tieState).map (fun e => e.viewed_at)
        = [50, 50] ∧
    ¬ StrictlyDescendingViewed (getUserQuestionHistory 1 none false tieState) := by
  have hmap : (getUserQuestionHistory 1 none false tieState).map
      (fun e => e.viewed_at) = [50, 50] := by decide
  refine ⟨hmap, ?_⟩
  intro h
  unfold StrictlyDescendingViewed at h
  cases hl : getUserQuestionHistory 1 none false tieState with
  | nil => rw [hl] at hmap; exact absurd hmap (by simp)
  | cons a t =>
      cases t with
      | nil => rw [hl] at hmap; exact absurd hmap (by simp)
      | cons b t2 =>
          rw [hl] at hmap h
          simp only [List.map_cons, List.cons.injEq] at hmap
          have hab := (List.chain'_cons.mp h).1
          omega

/-- For any candidate list containing `Q` there is a permutation — a
possible outcome of `ORDER BY random()` — that puts `Q` first. -/
theorem exists_shuffle_head (Q : QuestionRow) (l : List QuestionRow)
    (h : Q ∈ l) :
    ∃ shuffle : List QuestionRow → List QuestionRow,
      (∀ l', (shuffle l').Perm l') ∧ (shuffle l).head? = some Q := by
  refine ⟨fun l' => if Q ∈ l' then Q :: l'.erase Q else l', fun l' => ?_, ?_⟩
  · show (if Q ∈ l' then Q :: l'.erase Q else l').Perm l'
    by_cases hm : Q ∈ l'
    · rw [if_pos hm]; exact (List.perm_cons_erase hm).symm
    · rw [if_neg hm]
  · show (if Q ∈ l then Q :: l.erase Q else l).head? = some Q
    rw [if_pos h]; rfl

/-- A list equal to its own map is fixed pointwise. -/
theorem map_eq_self_fix {α : Type} (f : α → α) :
    ∀ (l : List α), l.map f = l → ∀ x ∈ l, f x = x := by
  intro l
  induction l with
  | nil => simp
  | cons a t ih =>
      intro h x hx
      simp only [List.map_cons, List.cons.injEq] at h
      rcases List.mem_cons.mp hx with rfl | hx
      · exact h.1
      · exact ih h.2 x hx

/-- Lower-casing shifts an ASCII uppercase letter by 32. -/
theorem toLower_toNat_of_upper (c : Char) (h1 : 65 ≤ c.toNat)
    (h2 : c.toNat ≤ 90) : (Char.toLower c).toNat = c.toNat + 32 := by
  unfold Char.toLower
  simp only [ge_iff_le, h1, h2, and_self, if_true]
  unfold Char.ofNat
  rw [dif_pos]
  · rfl
  · unfold Nat.isValidChar
    omega

/-- A string containing an ASCII uppercase letter is changed by
`str.lower()`. -/
theorem pyLower_ne_of_hasAsciiUpper (s : String) (h : hasAsciiUpper s = true) :
    pyLower s ≠ s := by
  intro heq
  unfold hasAsciiUpper at h
  obtain ⟨c, hc, hup⟩ := List.any_eq_true.mp h
  simp only [Bool.and_eq_true, decide_eq_true_eq] at hup
  have hdata : s.data.map Char.toLower = s.data := congrArg String.data heq
  have hfix : Char.toLower c = c := map_eq_self_fix Char.toLower s.data hdata c hc
  have hshift := toLower_toNat_of_upper c hup.1 hup.2
  rw [hfix] at hshift
  omega

/-- C1 amended: for a stored question `Q` with no view row for user `U`,
`get_unused_question(Q.interest, U)` may return `Q`, and
`get_multiple_unused_questions(Q.interest, U, n)` may include `Q`
*provided `Q.interest` is already lower-case* (that call filters on the
lower-cased interest); after `mark_question_as_viewed(Q.id, U)` succeeds,
no result of either call for `U` ever carries `Q`'s id again, in any
state reachable by the layer's operations. -/
theorem c1_amended_unused_invariant (s : DBState) (Q : QuestionRow) (U : Int)
    (hQ : Q ∈ s.questions)
    (hnv : ∀ v ∈ s.views, ¬(v.user_id = U ∧ v.question_id = Q.id)) :
    (∃ shuffle, (∀ l, (shuffle l).Perm l) ∧
        getUnusedQuestion shuffle Q.interest U s = some (toQuestionDict Q)) ∧
    (pyLower Q.interest = Q.interest →
      ∀ n : Int, 1 ≤ n →
        ∃ shuffle out, (∀ l, (shuffle l).Perm l) ∧
          getMultipleUnusedQuestions shuffle Q.interest (.vint U) (.vint n)
              false s = .ok out ∧
          toQuestionDict Q ∈ out) ∧
    (∀ (now : Nat) (s' : DBState),
      markQuestionAsViewed (.vint Q.id) (.vint U) now false s = .ok (s', ()) →
      ∀ (ops : List Op) (i : String),
        (∀ shuffle, (∀ l, (shuffle l).Perm l) →
          ∀ d, getUnusedQuestion shuffle i U (runOps s' ops) = some d →
            d.id ≠ Q.id) ∧
        (∀ shuffle (cnt : PyVal) (fail : Bool) (out : List QuestionDict),
          (∀ l, (shuffle l).Perm l) →
          getMultipleUnusedQuestions shuffle i (.vint U) cnt fail
              (runOps s' ops) = .ok out →
          ∀ d ∈ out, d.id ≠ Q.id)) := by
  have hcand : Q ∈ unusedCandidates s Q.interest U :=
    unusedCandidate_of_not_viewed s U Q hQ hnv
  refine ⟨?_, ?_, ?_⟩
  · obtain ⟨sh, hperm, hhead⟩ := exists_shuffle_head Q _ hcand
    refine ⟨sh, hperm, ?_⟩
    unfold getUnusedQuestion
    rw [hhead]
    rfl
  · intro hlow n hn
    have hcand' : Q ∈ multipleUnusedCandidates s (pyLower Q.interest) U := by
      rw [multipleUnusedCandidates_eq_unused, hlow]
      exact hcand
    obtain ⟨sh, hperm, hhead⟩ := exists_shuffle_head Q _ hcand'
    obtain ⟨t, ht⟩ :
        ∃ t, sh (multipleUnusedCandidates s (pyLower Q.interest) U) = Q :: t := by
      cases hc : sh (multipleUnusedCandidates s (pyLower Q.interest) U) with
      | nil => rw [hc] at hhead; exact absurd hhead (by simp)
      | cons a t =>
          rw [hc] at hhead
          simp only [List.head?_cons, Option.some.injEq] at hhead
          exact ⟨t, by rw [hhead]⟩
    refine ⟨sh, _, hperm, rfl, ?_⟩
    simp only [PyVal.toInt]
    rw [ht]
    obtain ⟨m, hm⟩ : ∃ m, n.toNat = m + 1 := ⟨n.toNat - 1, by omega⟩
    rw [hm, List.take_succ_cons]
    exact List.mem_map_of_mem toQuestionDict (List.mem_cons_self Q _)
  · intro now s' hmk ops i
    have hs' : ({ s with views := s.views ++ [⟨U, Q.id, now⟩] } : DBState) = s' := by
      unfold markQuestionAsViewed at hmk
      simp only [PyVal.isInt, PyVal.toInt, Bool.not_true, Bool.or_self,
        Bool.false_eq_true, if_false, Except.ok.injEq, Prod.mk.injEq,
        and_true] at hmk
      exact hmk
    have hrow : (⟨U, Q.id, now⟩ : ViewRow) ∈ (runOps s' ops).views := by
      apply views_mono_runOps
      rw [← hs']
      simp
    constructor
    · intro sh hperm d hd
      obtain ⟨q, hqc, rfl⟩ := getUnusedQuestion_mem sh hperm i U _ d hd
      exact not_unusedCandidate_of_viewed _ i U Q.id _ hrow rfl rfl q hqc
    · intro sh cnt fail out hperm hok d hd
      obtain ⟨q, hqc, rfl⟩ := getMultiple_mem sh hperm i U cnt fail _ out hok d hd
      rw [multipleUnusedCandidates_eq_unused] at hqc
      exact not_unusedCandidate_of_viewed _ _ U Q.id _ hrow rfl rfl q hqc

/-- C1 is false as stated: `techQuestion` is stored under the mixed-case
interest `"Tech"` and has no view row, yet no random order can make
`get_multiple_unused_questions("Tech", 1, 5)` include it, because that
method filters on the lower-cased interest `"tech"`. -/
theorem c1_counterexample :
    techState.views = [] ∧
    techQuestion ∈ techState.questions ∧
    techQuestion.interest = "Tech" ∧
    ¬ ∃ (shuffle : List QuestionRow → List QuestionRow)
        (out : List QuestionDict),
        (∀ l, (shuffle l).Perm l) ∧
        getMultipleUnusedQuestions shuffle "Tech" (.vint 1) (.vint 5) false
            techState = .ok out ∧
        toQuestionDict techQuestion ∈ out := by
  refine ⟨rfl, by decide, rfl, ?_⟩
  rintro ⟨sh, out, hperm, hok, hmem⟩
  obtain ⟨q, hq, -⟩ := getMultiple_mem sh hperm "Tech" 1 (.vint 5) false
    techState out hok _ hmem
  have hnil : multipleUnusedCandidates techState (pyLower "Tech") 1 = [] := by
    decide
  rw [hnil] at hq
  exact absurd hq (by simp)

/-- Witness for `c1_amended_unused_invariant` at a lower-case-interest
store. -/
theorem c1_amended_witness :
    (∃ shuffle, (∀ l, (shuffle l).Perm l) ∧
        getUnusedQuestion shuffle sportsQuestion.interest 1 sportsState =
          some (toQuestionDict sportsQuestion)) ∧
    (pyLower sportsQuestion.interest = sportsQuestion.interest →
      ∀ n : Int, 1 ≤ n →
        ∃ shuffle out, (∀ l, (shuffle l).Perm l) ∧
          getMultipleUnusedQuestions shuffle sportsQuestion.interest (.vint 1)
              (.vint n) false sportsState = .ok out ∧
          toQuestionDict sportsQuestion ∈ out) ∧
    (∀ (now : Nat) (s' : DBState),
      markQuestionAsViewed (.vint sportsQuestion.id) (.vint 1) now false
          sportsState = .ok (s', ()) →
      ∀ (ops : List Op) (i : String),
        (∀ shuffle, (∀ l, (shuffle l).Perm l) →
          ∀ d, getUnusedQuestion shuffle i 1 (runOps s' ops) = some d →
            d.id ≠ sportsQuestion.id) ∧
        (∀ shuffle (cnt : PyVal) (fail : Bool) (out : List QuestionDict),
          (∀ l, (shuffle l).Perm l) →
          getMultipleUnusedQuestions shuffle i (.vint 1) cnt fail
              (runOps s' ops) = .ok out →
          ∀ d ∈ out, d.id ≠ sportsQuestion.id)) :=
  c1_amended_unused_invariant sportsState sportsQuestion 1 (by decide)
    (by decide)

/-- C10: `get_multiple_unused_questions` matches questions whose stored
interest equals the lower-cased argument, while `get_unused_question`
matches the argument verbatim; so for an interest containing an ASCII
uppercase letter, in a state where every question matching the
lower-cased form in fact stores the exact mixed-case interest,
`get_unused_question` can return an unviewed matching question `Q` while
`get_multiple_unused_questions` returns the empty list for the same user
and state. -/
theorem c10_casing_divergence (s : DBState) (i : String) (U : Int)
    (hup : hasAsciiUpper i = true)
    (hstore : ∀ q ∈ s.questions, q.interest = pyLower i → q.interest = i)
    (Q : QuestionRow) (hQ : Q ∈ unusedCandidates s i U) :
    (∃ shuffle, (∀ l, (shuffle l).Perm l) ∧
        getUnusedQuestion shuffle i U s = some (toQuestionDict Q)) ∧
    (∀ (n : Int) (fail : Bool)
        (shuffle : List QuestionRow → List QuestionRow),
      (∀ l, (shuffle l).Perm l) →
      getMultipleUnusedQuestions shuffle i (.vint U) (.vint n) fail s
        = .ok []) := by
  have hlow : pyLower i ≠ i := pyLower_ne_of_hasAsciiUpper i hup
  constructor
  · obtain ⟨sh, hperm, hhead⟩ := exists_shuffle_head Q _ hQ
    refine ⟨sh, hperm, ?_⟩
    unfold getUnusedQuestion
    rw [hhead]
    rfl
  · intro n fail sh hperm
    have hnil : multipleUnusedCandidates s (pyLower i) U = [] := by
      unfold multipleUnusedCandidates
      rw [List.filter_eq_nil_iff]
      intro q hq hmatch
      rw [Bool.and_eq_true, beq_iff_eq] at hmatch
      exact hlow (hmatch.1 ▸ hstore q hq hmatch.1)
    cases fail with
    | true => rfl
    | false =>
        unfold getMultipleUnusedQuestions
        simp only [PyVal.isInt, PyVal.toInt, Bool.not_true, Bool.or_self,
          Bool.false_eq_true, if_false, hnil]
        rw [(hperm []).eq_nil]
        simp

/-- Witness for `c10_casing_divergence` at the `"Tech"` store. -/
theorem c10_casing_divergence_witness :
    (∃ shuffle, (∀ l, (shuffle l).Perm l) ∧
        getUnusedQuestion shuffle "Tech" 1 techState =
          some (toQuestionDict techQuestion)) ∧
    (∀ (n : Int) (fail : Bool)
        (shuffle : List QuestionRow → List QuestionRow),
      (∀ l, (shuffle l).Perm l) →
      getMultipleUnusedQuestions shuffle "Tech" (.vint 1) (.vint n) fail
          techState = .ok []) :=
  c10_casing_divergence techState "Tech" 1 (by decide) (by decide)
    techQuestion (by decide)
